import Mathlib

/-!
Verification of the WIFIS reduction pipeline's fitting orchestration layer
(`SPINS/run_ppxf.py`, `WGS/pipeline.py`) against its specification.

Numerical arrays are embedded as `List ℚ`; a possibly-NaN array entry is
embedded as `Option ℚ` with `none` playing the role of NaN.  The external
collaborators (`ppxf`, `util.log_rebin`, `np.exp`, `reddening_cal00`) are
taken as parameters of the definitions that call them.
-/

namespace Wifis

/-- Dot product of two rational vectors (`np.dot` on 1-d arrays). -/
def dotL (a b : List ℚ) : ℚ := (List.zipWith (· * ·) a b).sum

/-! ### Spectrum Loader (`run_ppxf`, lines 211–216)

`idx = np.where(flux != 0)` followed by fancy-indexing `wave[idx]`,
`flux[idx]`, `fluxerr[idx]`; then `fluxerr[fluxerr == 0] = fluxerr.max()`. -/

/-- Indices kept by `np.where(flux != 0)`. -/
def removeZeroIdx (flux : List ℚ) : List ℕ :=
  (List.range flux.length).filter (fun i => flux.getD i 0 ≠ 0)

/-- The loader's zero-flux removal: keep the rows (wave, flux, fluxerr)
at the indices where the flux is non-zero. -/
def removeZeros (wave flux fluxerr : List ℚ) : List ℚ × List ℚ × List ℚ :=
  let idx := removeZeroIdx flux
  (idx.map (wave.getD · 0), idx.map (flux.getD · 0), idx.map (fluxerr.getD · 0))

/-- `np.max` of a non-empty array (0 on the empty array, which `numpy` rejects). -/
def npMax : List ℚ → ℚ
  | [] => 0
  | x :: t => t.foldl max x

/-- `fluxerr[fluxerr == 0] = fluxerr.max()`. -/
def replaceZeroErr (fluxerr : List ℚ) : List ℚ :=
  fluxerr.map (fun x => if x = 0 then npMax fluxerr else x)

/-- Spec-side trim that drops only the leading and trailing zero-flux
samples of a flux array (what the specification's loader contract asks for). -/
def trimZeroBorders (flux : List ℚ) : List ℚ :=
  ((flux.dropWhile (· = 0)).reverse.dropWhile (· = 0)).reverse

/-- Spec-side maximum non-zero uncertainty. -/
def maxNonzero (l : List ℚ) : ℚ := npMax (l.filter (· ≠ 0))

/-! Helper lemmas about `npMax` and index-filtered maps. -/

theorem foldl_max_le_iff (t : List ℚ) (a c : ℚ) :
    t.foldl max a ≤ c ↔ a ≤ c ∧ ∀ x ∈ t, x ≤ c := by
  induction t generalizing a with
  | nil => simp
  | cons y t ih =>
    simp only [List.foldl_cons, ih, max_le_iff, List.mem_cons]
    constructor
    · rintro ⟨⟨h1, h2⟩, h3⟩
      exact ⟨h1, fun x hx => hx.elim (fun h => h ▸ h2) (h3 x)⟩
    · rintro ⟨h1, h2⟩
      exact ⟨⟨h1, h2 y (Or.inl rfl)⟩, fun x hx => h2 x (Or.inr hx)⟩

theorem foldl_max_mem (t : List ℚ) (a : ℚ) :
    t.foldl max a = a ∨ t.foldl max a ∈ t := by
  induction t generalizing a with
  | nil => exact Or.inl rfl
  | cons y t ih =>
    rcases ih (max a y) with h | h
    · rcases max_cases a y with ⟨he, _⟩ | ⟨he, _⟩
      · exact Or.inl (by rw [List.foldl_cons, h, he])
      · exact Or.inr (by rw [List.foldl_cons, h, he]; exact List.mem_cons_self _ _)
    · exact Or.inr (List.mem_cons_of_mem _ h)

theorem le_foldl_max (t : List ℚ) (a : ℚ) : a ≤ t.foldl max a := by
  induction t generalizing a with
  | nil => exact le_refl a
  | cons y t ih => exact le_trans (le_max_left a y) (ih (max a y))

theorem mem_le_foldl_max (t : List ℚ) (a x : ℚ) (hx : x ∈ t) : x ≤ t.foldl max a := by
  induction t generalizing a with
  | nil => cases hx
  | cons y t ih =>
    rw [List.foldl_cons]
    rcases List.mem_cons.mp hx with h | h
    · rw [h]
      exact le_trans (le_max_right a y) (le_foldl_max t (max a y))
    · exact ih (max a y) h

theorem npMax_mem (l : List ℚ) (h : l ≠ []) : npMax l ∈ l := by
  cases l with
  | nil => exact absurd rfl h
  | cons x t =>
    show t.foldl max x ∈ x :: t
    rcases foldl_max_mem t x with h' | h'
    · rw [h']; exact List.mem_cons_self _ _
    · exact List.mem_cons_of_mem _ h'

theorem le_npMax (l : List ℚ) (x : ℚ) (hx : x ∈ l) : x ≤ npMax l := by
  cases l with
  | nil => cases hx
  | cons y t =>
    rcases List.mem_cons.mp hx with h | h
    · exact h ▸ le_foldl_max t y
    · exact mem_le_foldl_max t y x h

theorem filter_map_succ (p : ℕ → Bool) (l : List ℕ) :
    (l.map Nat.succ).filter p = (l.filter (fun i => p (i + 1))).map Nat.succ := by
  induction l with
  | nil => rfl
  | cons a l ih =>
    simp only [List.map_cons, List.filter_cons, Nat.succ_eq_add_one, ih]
    by_cases h : p (a + 1) = true
    · simp [h]
    · simp [h]

theorem removeZeroIdx_map (f : List ℚ) :
    ∀ g : List ℚ, g.length = f.length →
      (removeZeroIdx f).map (fun i => g.getD i 0)
        = ((g.zip f).filter (fun p => p.2 ≠ 0)).map Prod.fst := by
  induction f with
  | nil =>
    intro g hg
    rw [List.length_eq_zero.mp hg]
    rfl
  | cons a t ih =>
    intro g hg
    cases g with
    | nil => simp at hg
    | cons b s =>
      have hlen : s.length = t.length := by simpa using hg
      have key := ih s hlen
      simp only [removeZeroIdx] at key
      by_cases h : a = 0 <;>
        · simp [removeZeroIdx, List.range_succ_eq_map, List.filter_cons,
            filter_map_succ, Function.comp_def, h, List.zip_cons_cons]
          simpa using key

theorem removeZeroIdx_map_self (f : List ℚ) :
    (removeZeroIdx f).map (fun i => f.getD i 0) = f.filter (fun x => x ≠ 0) := by
  induction f with
  | nil => rfl
  | cons a t ih =>
    have key := ih
    simp only [removeZeroIdx] at key
    by_cases h : a = 0 <;>
      · simp [removeZeroIdx, List.range_succ_eq_map, List.filter_cons,
          filter_map_succ, Function.comp_def, h]
        simpa using key

theorem filter_ne_dropWhile_zero (l : List ℚ) :
    (l.dropWhile (fun x => x = 0)).filter (fun x => x ≠ 0)
      = l.filter (fun x => x ≠ 0) := by
  induction l with
  | nil => rfl
  | cons a l ih =>
    by_cases h : a = 0
    · subst h
      simpa [List.dropWhile_cons, List.filter_cons] using ih
    · simp [List.dropWhile_cons, h, List.filter_cons]

theorem filter_ne_trimZeroBorders (f : List ℚ) :
    (trimZeroBorders f).filter (fun x => x ≠ 0) = f.filter (fun x => x ≠ 0) := by
  unfold trimZeroBorders
  rw [List.filter_reverse, filter_ne_dropWhile_zero, List.filter_reverse,
    List.reverse_reverse, filter_ne_dropWhile_zero]

theorem getD_map_lt (g : ℚ → ℚ) :
    ∀ (l : List ℚ) (i : ℕ), i < l.length → (l.map g).getD i 0 = g (l.getD i 0)
  | [], _, h => absurd h (by simp)
  | _ :: _, 0, _ => rfl
  | _ :: t, (i+1), h => getD_map_lt g t i (Nat.lt_of_succ_lt_succ h)

theorem npMax_eq_maxNonzero (l : List ℚ) (hpos : ∀ x ∈ l, 0 ≤ x)
    (hnz : ∃ x ∈ l, x ≠ 0) : npMax l = maxNonzero l ∧ 0 < npMax l := by
  obtain ⟨x0, hx0, hx0ne⟩ := hnz
  have hx0pos : 0 < x0 := lt_of_le_of_ne (hpos x0 hx0) (Ne.symm hx0ne)
  have hne : l ≠ [] := by rintro rfl; cases hx0
  have hmpos : 0 < npMax l := lt_of_lt_of_le hx0pos (le_npMax l x0 hx0)
  refine ⟨le_antisymm ?_ ?_, hmpos⟩
  · have hmem : npMax l ∈ l.filter (fun x => x ≠ 0) := by
      refine List.mem_filter.mpr ⟨npMax_mem l hne, ?_⟩
      simp [ne_of_gt hmpos]
    exact le_npMax _ _ hmem
  · have hmem : maxNonzero l ∈ l.filter (fun x => x ≠ 0) := by
      apply npMax_mem
      intro hcon
      have : x0 ∈ l.filter (fun x => x ≠ 0) := by
        refine List.mem_filter.mpr ⟨hx0, by simp [hx0ne]⟩
      rw [hcon] at this
      cases this
    exact le_npMax l _ (List.mem_filter.mp hmem).1

/-- C2 counterexample: on the flux array `[1, 0, 2]` with an interior zero,
the loader of `run_ppxf` (which keeps the rows where `flux != 0`) drops the
interior zero-flux sample, while the specified border-only trim keeps it. -/
theorem c2_counterexample :
    removeZeros [10, 11, 12] [1, 0, 2] [5, 5, 5] = ([10, 12], [1, 2], [5, 5])
      ∧ trimZeroBorders [1, 0, 2] = [1, 0, 2]
      ∧ (removeZeros [10, 11, 12] [1, 0, 2] [5, 5, 5]).2.1
          ≠ trimZeroBorders [1, 0, 2] := by
  refine ⟨by decide, by decide, by decide⟩

/-- C2 amended: the loader drops every zero-flux sample — leading, trailing
and interior alike — keeping exactly the rows with non-zero flux in their
original order, with wavelength and uncertainty kept row-aligned; it agrees
with the specified border-only trim precisely when the spectrum has no
interior zero-flux sample (i.e. when the border-trimmed flux has no zeros). -/
theorem c2_amended (wave flux fluxerr : List ℚ)
    (hw : wave.length = flux.length) (he : fluxerr.length = flux.length) :
    (removeZeros wave flux fluxerr).2.1 = flux.filter (fun x => x ≠ 0)
      ∧ (removeZeros wave flux fluxerr).1
          = ((wave.zip flux).filter (fun p => p.2 ≠ 0)).map Prod.fst
      ∧ (removeZeros wave flux fluxerr).2.2
          = ((fluxerr.zip flux).filter (fun p => p.2 ≠ 0)).map Prod.fst
      ∧ (flux.filter (fun x => x ≠ 0) = trimZeroBorders flux
          ↔ ∀ x ∈ trimZeroBorders flux, x ≠ 0) := by
  refine ⟨removeZeroIdx_map_self flux, removeZeroIdx_map flux wave hw,
    removeZeroIdx_map flux fluxerr he, ?_⟩
  constructor
  · intro h x hx
    rw [← h] at hx
    simpa using (List.mem_filter.mp hx).2
  · intro h
    have h1 : (trimZeroBorders flux).filter (fun x => x ≠ 0)
        = trimZeroBorders flux := by
      apply List.filter_eq_self.mpr
      intro x hx
      simpa using h x hx
    rw [← filter_ne_trimZeroBorders flux, h1]

/-- C9: after the loader's `fluxerr[fluxerr == 0] = fluxerr.max()` step, for a
non-negative uncertainty array with at least one non-zero entry, every
zero entry has been replaced by the maximum non-zero uncertainty, every
non-zero entry is unchanged, and the resulting array contains no zeros. -/
theorem c9_zero_uncertainty_replacement (fluxerr : List ℚ)
    (hpos : ∀ x ∈ fluxerr, 0 ≤ x) (hnz : ∃ x ∈ fluxerr, x ≠ 0) :
    (∀ i, i < fluxerr.length → fluxerr.getD i 0 ≠ 0 →
        (replaceZeroErr fluxerr).getD i 0 = fluxerr.getD i 0)
      ∧ (∀ i, i < fluxerr.length → fluxerr.getD i 0 = 0 →
        (replaceZeroErr fluxerr).getD i 0 = maxNonzero fluxerr)
      ∧ ∀ y ∈ replaceZeroErr fluxerr, y ≠ 0 := by
  obtain ⟨hmax, hmpos⟩ := npMax_eq_maxNonzero fluxerr hpos hnz
  refine ⟨?_, ?_, ?_⟩
  · intro i hi hne
    rw [replaceZeroErr, getD_map_lt _ _ _ hi, if_neg hne]
  · intro i hi hzero
    rw [replaceZeroErr, getD_map_lt _ _ _ hi, if_pos hzero, hmax]
  · intro y hy
    obtain ⟨x, hx, hxy⟩ := List.mem_map.mp hy
    by_cases h : x = 0
    · rw [← hxy, if_pos h]
      exact ne_of_gt hmpos
    · rw [← hxy, if_neg h]
      exact h

/-- C9 witness: the replacement theorem instantiated on `[0, 2, 1]`. -/
theorem c9_witness :
    (∀ x ∈ ([0, 2, 1] : List ℚ), 0 ≤ x)
      ∧ (∃ x ∈ ([0, 2, 1] : List ℚ), x ≠ 0)
      ∧ ((∀ i, i < ([0, 2, 1] : List ℚ).length → ([0, 2, 1] : List ℚ).getD i 0 ≠ 0 →
            (replaceZeroErr [0, 2, 1]).getD i 0 = ([0, 2, 1] : List ℚ).getD i 0)
          ∧ (∀ i, i < ([0, 2, 1] : List ℚ).length → ([0, 2, 1] : List ℚ).getD i 0 = 0 →
            (replaceZeroErr [0, 2, 1]).getD i 0 = maxNonzero [0, 2, 1])
          ∧ ∀ y ∈ replaceZeroErr [0, 2, 1], y ≠ 0) :=
  ⟨by decide, by decide,
    c9_zero_uncertainty_replacement [0, 2, 1] (by decide) (by decide)⟩

/-- C2 witness: the amended loader theorem instantiated on the concrete
spectrum `wave = [10, 11, 12]`, `flux = [1, 0, 2]`, `fluxerr = [5, 5, 5]`. -/
theorem c2_witness :
    ([10, 11, 12] : List ℚ).length = ([1, 0, 2] : List ℚ).length
      ∧ ([5, 5, 5] : List ℚ).length = ([1, 0, 2] : List ℚ).length
      ∧ ((removeZeros [10, 11, 12] [1, 0, 2] [5, 5, 5]).2.1
            = ([1, 0, 2] : List ℚ).filter (fun x => x ≠ 0)
          ∧ (removeZeros [10, 11, 12] [1, 0, 2] [5, 5, 5]).1
            = ((([10, 11, 12] : List ℚ).zip [1, 0, 2]).filter
                (fun p => p.2 ≠ 0)).map Prod.fst
          ∧ (removeZeros [10, 11, 12] [1, 0, 2] [5, 5, 5]).2.2
            = ((([5, 5, 5] : List ℚ).zip [1, 0, 2]).filter
                (fun p => p.2 ≠ 0)).map Prod.fst
          ∧ (([1, 0, 2] : List ℚ).filter (fun x => x ≠ 0)
              = trimZeroBorders [1, 0, 2]
            ↔ ∀ x ∈ trimZeroBorders [1, 0, 2], x ≠ 0)) :=
  ⟨by decide, by decide, c2_amended [10, 11, 12] [1, 0, 2] [5, 5, 5] (by decide) (by decide)⟩

/-! ### Bad-Pixel Mask Builder (`run_ppxf`, lines 234–244)

`goodpixels = np.arange(len(lam))`, then for each sky line
`goodpixels = np.intersect1d(goodpixels, np.argwhere((lam < line-15) | (lam > line+15)))`,
then `goodpixels = np.intersect1d(goodpixels, np.where(~np.isnan(galaxy))[0])`. -/

/-- The fixed sky-emission line list of `run_ppxf` (angstrom). -/
def skylines : List ℚ := [4785, 5577, 5889, 6300, 6863]

/-- `np.intersect1d` on sorted duplicate-free index arrays. -/
def intersect1d (a b : List ℕ) : List ℕ := a.filter (fun i => i ∈ b)

/-- Index `i` lies outside the ±15 Å exclusion window around `line`. -/
def outsideB (lam : List ℚ) (line : ℚ) (i : ℕ) : Bool :=
  decide (lam.getD i 0 < line - 15 ∨ line + 15 < lam.getD i 0)

/-- Index `i` lies outside every exclusion window of `lines`. -/
def outsideAllB (lam : List ℚ) (lines : List ℚ) (i : ℕ) : Bool :=
  lines.all (fun line => outsideB lam line i)

/-- `np.argwhere((lam < line - 15) | (lam > line + 15)).ravel()`. -/
def lineMask (lam : List ℚ) (line : ℚ) : List ℕ :=
  (List.range lam.length).filter (outsideB lam line)

/-- `np.where(~np.isnan(galaxy))[0]`. -/
def notNanIdx (galaxy : List (Option ℚ)) : List ℕ :=
  (List.range galaxy.length).filter (fun i => (galaxy.getD i none).isSome)

/-- The mask-builder loop of `run_ppxf` over an arbitrary line list. -/
def goodpixelsOf (lines : List ℚ) (lam : List ℚ) (galaxy : List (Option ℚ)) :
    List ℕ :=
  intersect1d
    (lines.foldl (fun gp line => intersect1d gp (lineMask lam line))
      (List.range lam.length))
    (notNanIdx galaxy)

/-- The mask builder as run by the code, with its fixed sky-line list. -/
def goodpixels (lam : List ℚ) (galaxy : List (Option ℚ)) : List ℕ :=
  goodpixelsOf skylines lam galaxy

/-- Variant of the mask builder that intersects the NaN exclusion first. -/
def goodpixelsNanFirst (lines : List ℚ) (lam : List ℚ)
    (galaxy : List (Option ℚ)) : List ℕ :=
  lines.foldl (fun gp line => intersect1d gp (lineMask lam line))
    (intersect1d (List.range lam.length) (notNanIdx galaxy))

/-- Canonical one-pass form of the mask. -/
def goodpixelsSpec (lines : List ℚ) (lam : List ℚ) (galaxy : List (Option ℚ)) :
    List ℕ :=
  (List.range lam.length).filter
    (fun i => outsideAllB lam lines i && (decide (i < galaxy.length)
      && (galaxy.getD i none).isSome))

theorem intersect1d_lineMask (lam : List ℚ) (line : ℚ) (p : ℕ → Bool) :
    intersect1d ((List.range lam.length).filter p) (lineMask lam line)
      = (List.range lam.length).filter (fun i => p i && outsideB lam line i) := by
  unfold intersect1d
  rw [List.filter_filter]
  apply List.filter_congr
  intro i hi
  have hilt : i < lam.length := List.mem_range.mp hi
  simp [lineMask, List.mem_filter, List.mem_range, hilt]
  exact Bool.and_comm _ _

theorem fold_intersect_lineMask (lam : List ℚ) (lines : List ℚ) (p : ℕ → Bool) :
    lines.foldl (fun gp line => intersect1d gp (lineMask lam line))
        ((List.range lam.length).filter p)
      = (List.range lam.length).filter
          (fun i => p i && outsideAllB lam lines i) := by
  induction lines generalizing p with
  | nil =>
    simp only [List.foldl_nil, outsideAllB, List.all_nil, Bool.and_true]
  | cons L rest ih =>
    rw [List.foldl_cons, intersect1d_lineMask, ih]
    apply List.filter_congr
    intro i _
    simp [outsideAllB, Bool.and_assoc]

theorem goodpixelsOf_eq_spec (lines : List ℚ) (lam : List ℚ)
    (galaxy : List (Option ℚ)) :
    goodpixelsOf lines lam galaxy = goodpixelsSpec lines lam galaxy := by
  unfold goodpixelsOf goodpixelsSpec
  rw [← List.filter_true (List.range lam.length), fold_intersect_lineMask,
    List.filter_true]
  unfold intersect1d
  rw [List.filter_filter]
  apply List.filter_congr
  intro i hi
  have hilt : i < lam.length := List.mem_range.mp hi
  simp [notNanIdx, List.mem_filter, List.mem_range, Bool.true_and]
  exact Bool.and_comm _ _

theorem goodpixelsNanFirst_eq_spec (lines : List ℚ) (lam : List ℚ)
    (galaxy : List (Option ℚ)) :
    goodpixelsNanFirst lines lam galaxy = goodpixelsSpec lines lam galaxy := by
  unfold goodpixelsNanFirst goodpixelsSpec
  have h1 : intersect1d (List.range lam.length) (notNanIdx galaxy)
      = (List.range lam.length).filter
          (fun i => decide (i < galaxy.length) && (galaxy.getD i none).isSome) := by
    unfold intersect1d
    apply List.filter_congr
    intro i hi
    simp [notNanIdx, List.mem_filter, List.mem_range]
  rw [h1, fold_intersect_lineMask]
  apply List.filter_congr
  intro i _
  rw [Bool.and_comm]

theorem outsideAllB_perm (lam : List ℚ) {l₁ l₂ : List ℚ} (h : l₁.Perm l₂)
    (i : ℕ) : outsideAllB lam l₁ i = outsideAllB lam l₂ i := by
  apply Bool.eq_iff_iff.mpr
  simp only [outsideAllB, List.all_eq_true]
  exact ⟨fun H x hx => H x (h.mem_iff.mpr hx), fun H x hx => H x (h.mem_iff.mp hx)⟩

/-- C4: the Bad-Pixel Mask Builder of `run_ppxf` returns exactly the indices
whose wavelength lies outside every window `[L-15, L+15]` for `L` in
`{4785, 5577, 5889, 6300, 6863}` and whose (rebinned) flux is not NaN, and
the result is independent of the order in which the per-line exclusions and
the NaN exclusion are intersected. -/
theorem c4_mask_builder (lam : List ℚ) (galaxy : List (Option ℚ)) :
    (∀ i, i ∈ goodpixels lam galaxy ↔
        i < lam.length
          ∧ (∀ L ∈ skylines, lam.getD i 0 < L - 15 ∨ L + 15 < lam.getD i 0)
          ∧ i < galaxy.length ∧ (galaxy.getD i none).isSome)
      ∧ (∀ lines', skylines.Perm lines' →
          goodpixelsOf lines' lam galaxy = goodpixels lam galaxy
            ∧ goodpixelsNanFirst lines' lam galaxy = goodpixels lam galaxy) := by
  constructor
  · intro i
    rw [goodpixels, goodpixelsOf_eq_spec]
    simp only [goodpixelsSpec, List.mem_filter, List.mem_range,
      Bool.and_eq_true, decide_eq_true_eq, outsideAllB, List.all_eq_true,
      outsideB, and_assoc]
  · intro lines' hperm
    rw [goodpixels, goodpixelsOf_eq_spec, goodpixelsOf_eq_spec,
      goodpixelsNanFirst_eq_spec]
    constructor <;>
      · apply List.filter_congr
        intro i _
        rw [outsideAllB_perm lam hperm]

/-- C4 witness: the mask theorem instantiated on a concrete three-pixel grid
straddling the 5577 Å window with one NaN flux sample, and the sky-line list
taken in a permuted order. -/
theorem c4_witness :
    (Wifis.skylines.Perm [6863, 4785, 5577, 5889, 6300])
      ∧ ((∀ i, i ∈ goodpixels [5560, 5570, 5600] [some 1, none, some 2] ↔
            i < ([5560, 5570, 5600] : List ℚ).length
              ∧ (∀ L ∈ skylines,
                  ([5560, 5570, 5600] : List ℚ).getD i 0 < L - 15
                    ∨ L + 15 < ([5560, 5570, 5600] : List ℚ).getD i 0)
              ∧ i < ([some 1, none, some 2] : List (Option ℚ)).length
              ∧ (([some 1, none, some 2] : List (Option ℚ)).getD i none).isSome)
          ∧ (∀ lines', skylines.Perm lines' →
              goodpixelsOf lines' [5560, 5570, 5600] [some 1, none, some 2]
                  = goodpixels [5560, 5570, 5600] [some 1, none, some 2]
                ∧ goodpixelsNanFirst lines' [5560, 5570, 5600]
                    [some 1, none, some 2]
                  = goodpixels [5560, 5570, 5600] [some 1, none, some 2])) :=
  ⟨by decide, c4_mask_builder [5560, 5570, 5600] [some 1, none, some 2]⟩

/-! ### Result Decomposer (`pPXF.calc_arrays`, lines 34–70)

The design matrix is embedded row-major (`matrix : List (List ℚ)`, one inner
list per wavelength pixel); a column slice is a per-row `take`/`drop`.  The
external `reddening_cal00` is a parameter `redcurve`. -/

/-- Legendre polynomial `P n` (the basis used by
`np.polynomial.legendre.legval`). -/
def legendreP : ℕ → ℚ → ℚ
  | 0, _ => 1
  | 1, x => x
  | (n + 2), x =>
      ((2 * (n : ℚ) + 3) * x * legendreP (n + 1) x
        - ((n : ℚ) + 1) * legendreP n x) / ((n : ℚ) + 2)

/-- `np.polynomial.legendre.legval(x, c)` = Σ_i c_i · P_i(x). -/
def legval (c : List ℚ) (x : ℚ) : ℚ :=
  (c.enum.map (fun p => p.2 * legendreP p.1 x)).sum

/-- `np.linspace a b n`. -/
def linspace (a b : ℚ) (n : ℕ) : List ℚ :=
  if n = 1 then [a]
  else (List.range n).map (fun i => a + (b - a) * i / ((n : ℚ) - 1))

/-- The fields of a pPXF fit result consumed by `pPXF.calc_arrays`. -/
structure FitRecord where
  matrix : List (List ℚ)
  degree : ℕ
  ntemplates : ℕ
  ngas : ℕ
  weights : List ℚ
  polyweights : Option (List ℚ)
  mpolyweights : Option (List ℚ)
  reddening : Option ℚ
  galaxy : List ℚ
  lam : List ℚ
  bestfit : List ℚ
  goodpixels : List ℕ

/-- The arrays attached to the result object by `pPXF.calc_arrays`. -/
structure Components where
  apoly : List ℚ
  mpoly : List ℚ
  extinction : List ℚ
  star_weights : List ℚ
  gas_weights : List ℚ
  sky_weights : List ℚ
  ssps : List ℚ
  gas : List ℚ
  bestsky : List ℚ

/-- `pPXF.calc_arrays`: successive slicing of the design matrix into
[additive-polynomial basis | stellar | gas | sky] and of the weight vector
into [stellar | gas | sky], then the component spectra as matrix-vector
products, exactly as the Python code peels the matrix left to right. -/
def calc_arrays (redcurve : ℚ → ℚ → ℚ) (p : FitRecord) : Components :=
  let mpolyCols := p.matrix.map (fun r => r.take (p.degree + 1))
  let rest1 := p.matrix.map (fun r => r.drop (p.degree + 1))
  let sspsCols := rest1.map (fun r => r.take p.ntemplates)
  let rest2 := rest1.map (fun r => r.drop p.ntemplates)
  let gasCols := rest2.map (fun r => r.take p.ngas)
  let skyCols := rest2.map (fun r => r.drop p.ngas)
  let sw := p.weights.take p.ntemplates
  let wrest := p.weights.drop p.ntemplates
  let gw := wrest.take p.ngas
  let skw := wrest.drop p.ngas
  { apoly := match p.polyweights with
      | some pw => mpolyCols.map (fun r => dotL r pw)
      | none => p.galaxy.map (fun _ => 0)
    mpoly := match p.mpolyweights with
      | some mw => (linspace (-1) 1 p.galaxy.length).map (legval (1 :: mw))
      | none => p.galaxy.map (fun _ => 1)
    extinction := match p.reddening with
      | some rv => p.lam.map (fun l => redcurve l rv)
      | none => p.galaxy.map (fun _ => 1)
    star_weights := sw
    gas_weights := gw
    sky_weights := skw
    ssps := sspsCols.map (fun r => dotL r sw)
    gas := gasCols.map (fun r => dotL r gw)
    bestsky := skyCols.map (fun r => dotL r skw) }

/-- C3: for the fixed column order [additive-polynomial basis (degree+1) |
ntemplates stellar | ngas gas | remaining sky], `calc_arrays` produces
stellar/gas/sky spectra as the matching column-slice · weight-slice
products, the additive continuum from polyweights (zeros when absent), the
multiplicative polynomial as a Legendre expansion with leading coefficient 1
(all ones when absent), and the extinction from the analytic reddening curve
(all ones when no reddening parameter was fit). -/
theorem c3_result_decomposer (redcurve : ℚ → ℚ → ℚ) (p : FitRecord) :
    ((calc_arrays redcurve p).ssps = p.matrix.map
        (fun row => dotL ((row.drop (p.degree + 1)).take p.ntemplates)
          (p.weights.take p.ntemplates)))
      ∧ ((calc_arrays redcurve p).gas = p.matrix.map
          (fun row => dotL ((row.drop (p.degree + 1 + p.ntemplates)).take p.ngas)
            ((p.weights.drop p.ntemplates).take p.ngas)))
      ∧ ((calc_arrays redcurve p).bestsky = p.matrix.map
          (fun row => dotL (row.drop (p.degree + 1 + p.ntemplates + p.ngas))
            (p.weights.drop (p.ntemplates + p.ngas))))
      ∧ (∀ pw, p.polyweights = some pw →
          (calc_arrays redcurve p).apoly = p.matrix.map
            (fun row => dotL (row.take (p.degree + 1)) pw))
      ∧ (p.polyweights = none →
          (calc_arrays redcurve p).apoly = p.galaxy.map (fun _ => 0))
      ∧ (∀ mw, p.mpolyweights = some mw →
          (calc_arrays redcurve p).mpoly
            = (linspace (-1) 1 p.galaxy.length).map (legval (1 :: mw)))
      ∧ (p.mpolyweights = none →
          (calc_arrays redcurve p).mpoly = p.galaxy.map (fun _ => 1))
      ∧ (∀ rv, p.reddening = some rv →
          (calc_arrays redcurve p).extinction
            = p.lam.map (fun l => redcurve l rv))
      ∧ (p.reddening = none →
          (calc_arrays redcurve p).extinction = p.galaxy.map (fun _ => 1)) := by
  refine ⟨?_, ?_, ?_, ?_, ?_, ?_, ?_, ?_, ?_⟩
  · simp only [calc_arrays, List.map_map]
    apply List.map_congr_left
    intro row _
    rfl
  · simp only [calc_arrays, List.map_map]
    apply List.map_congr_left
    intro row _
    simp only [Function.comp_apply, List.drop_drop]
  · simp only [calc_arrays, List.map_map]
    apply List.map_congr_left
    intro row _
    simp only [Function.comp_apply, List.drop_drop]
  · intro pw hpw
    simp only [calc_arrays, hpw, List.map_map]
    rfl
  · intro hpw
    simp only [calc_arrays, hpw]
  · intro mw hmw
    simp only [calc_arrays, hmw]
  · intro hmw
    simp only [calc_arrays, hmw]
  · intro rv hrv
    simp only [calc_arrays, hrv]
  · intro hrv
    simp only [calc_arrays, hrv]

/-- C3 witness: the decomposer theorem instantiated on a concrete two-pixel
fit record with degree 0, one stellar, one gas and one sky column, fitted
polyweights, mpolyweights and reddening, so every hypothesis of the
decomposition statement is discharged on a concrete input. -/
theorem c3_witness :
    ((⟨[[1, 2, 3, 4], [5, 6, 7, 8]], 0, 1, 1, [10, 20, 30],
        some [3], some [2], some (1 / 2), [100, 200], [9000, 9001],
        [0, 0], [0, 1]⟩ : FitRecord).polyweights = some [3])
      ∧ ((⟨[[1, 2, 3, 4], [5, 6, 7, 8]], 0, 1, 1, [10, 20, 30],
            some [3], some [2], some (1 / 2), [100, 200], [9000, 9001],
            [0, 0], [0, 1]⟩ : FitRecord).reddening = some (1 / 2))
      ∧ (calc_arrays (fun l r => l * r)
          ⟨[[1, 2, 3, 4], [5, 6, 7, 8]], 0, 1, 1, [10, 20, 30],
            some [3], some [2], some (1 / 2), [100, 200], [9000, 9001],
            [0, 0], [0, 1]⟩).apoly
          = ([[1, 2, 3, 4], [5, 6, 7, 8]] : List (List ℚ)).map
              (fun row => dotL (row.take (0 + 1)) [3])
      ∧ (calc_arrays (fun l r => l * r)
          ⟨[[1, 2, 3, 4], [5, 6, 7, 8]], 0, 1, 1, [10, 20, 30],
            some [3], some [2], some (1 / 2), [100, 200], [9000, 9001],
            [0, 0], [0, 1]⟩).extinction
          = ([9000, 9001] : List ℚ).map (fun l => (fun l r => l * r) l (1 / 2)) :=
  ⟨rfl, rfl,
    (c3_result_decomposer (fun l r => l * r) _).2.2.2.1 [3] rfl,
    (c3_result_decomposer (fun l r => l * r) _).2.2.2.2.2.2.2.1 (1 / 2) rfl⟩

/-! ### S/N computation (`pPXF.calc_sn`, lines 72–79)

`signal = np.nanmedian(galaxy[goodpixels])`,
`meannoise = np.nanstd(sigma_clip(galaxy[goodpixels] - bestfit[goodpixels], sigma=5))`,
`sn = signal / meannoise`.  `astropy.stats.sigma_clip` with its defaults
iterates at most 5 times, re-centering on the median and clipping at
5 × the (population) standard deviation; the clip test `|x - c| ≤ 5σ` is
embedded as the exactly equivalent rational test `(x - c)² ≤ 25·σ²`.  The
final IEEE float division `signal / sqrt(noiseSq)` is embedded as
`ieeeDivBySqrt`, which keeps the exact pair in the finite case and returns
the IEEE special value (±inf, nan) when the divisor is zero. -/

/-- Sorting used by the median (`np.median` sorts ascending). -/
def sortQ (l : List ℚ) : List ℚ := l.insertionSort (· ≤ ·)

/-- `np.median`: middle element of the sorted data (mean of the two middle
elements for even length). -/
def median (l : List ℚ) : ℚ :=
  if l.length % 2 = 1 then (sortQ l).getD (l.length / 2) 0
  else ((sortQ l).getD (l.length / 2 - 1) 0 + (sortQ l).getD (l.length / 2) 0) / 2

/-- Arithmetic mean. -/
def mean (l : List ℚ) : ℚ := l.sum / l.length

/-- Population variance (`np.std(..., ddof=0)` squared). -/
def varQ (l : List ℚ) : ℚ := (l.map (fun x => (x - mean l) ^ 2)).sum / l.length

/-- One `sigma_clip` iteration: keep the points within 5 standard deviations
of the median of the currently surviving points. -/
def clipStep (l : List ℚ) : List ℚ :=
  l.filter (fun x => (x - median l) ^ 2 ≤ 25 * varQ l)

/-- `sigma_clip` iteration with fuel (astropy stops when an iteration clips
nothing or after `maxiters` iterations). -/
def sigmaClipIter : ℕ → List ℚ → List ℚ
  | 0, l => l
  | (k + 1), l =>
      let l' := clipStep l
      if l'.length = l.length then l else sigmaClipIter k l'

/-- `astropy.stats.sigma_clip(·, sigma=5)` with the default `maxiters=5`. -/
def sigma_clip5 (l : List ℚ) : List ℚ := sigmaClipIter 5 l

/-- Value of the IEEE division `signal / sqrt(noiseSq)` (`noiseSq ≥ 0`): the
finite case keeps the exact pair; a zero divisor gives +inf, −inf or NaN
according to the sign of the numerator. -/
inductive SNValue where
  | finite (signal noiseSq : ℚ)
  | posInf
  | negInf
  | nan
deriving DecidableEq

/-- IEEE semantics of `signal / sqrt(noiseSq)`. -/
def ieeeDivBySqrt (signal noiseSq : ℚ) : SNValue :=
  if noiseSq = 0 then
    if 0 < signal then .posInf else if signal < 0 then .negInf else .nan
  else .finite signal noiseSq

/-- The scalars attached to the result object by `pPXF.calc_sn`
(`noiseSq` is `meannoise` squared). -/
structure SNResult where
  signal : ℚ
  noiseSq : ℚ
  sn : SNValue
deriving DecidableEq

/-- `pPXF.calc_sn`. -/
def calc_sn (galaxy bestfit : List ℚ) (gp : List ℕ) : SNResult :=
  let g := gp.map (galaxy.getD · 0)
  let b := gp.map (bestfit.getD · 0)
  let resid := List.zipWith (· - ·) g b
  let signal := median g
  let noiseSq := varQ (sigma_clip5 resid)
  { signal := signal, noiseSq := noiseSq, sn := ieeeDivBySqrt signal noiseSq }

unseal Rat.add Rat.mul Rat.sub Rat.inv in
/-- C6 counterexample: for the all-zero spectrum fit perfectly by the
all-zero model, the clipped residual has zero variance and the signal
(median flux) is zero, so `signal / meannoise` is the IEEE NaN `0.0/0.0` —
not the infinity sentinel the claim promises. -/
theorem c6_counterexample :
    (calc_sn [0, 0, 0] [0, 0, 0] [0, 1, 2]).noiseSq = 0
      ∧ (calc_sn [0, 0, 0] [0, 0, 0] [0, 1, 2]).signal = 0
      ∧ (calc_sn [0, 0, 0] [0, 0, 0] [0, 1, 2]).sn = SNValue.nan := by
  refine ⟨by decide, by decide, by decide⟩

/-- C6 amended: `calc_sn` sets signal = median of the flux over the
fit-mask pixels and noise² = variance of the 5-sigma-clipped residual over
those pixels, and S/N = signal/noise with the IEEE zero-noise edge cases:
+infinity for positive signal, −infinity for negative signal, and NaN (not
an unhandled crash, but also not an infinity) when the signal is also zero;
with non-zero noise the quotient is the ordinary finite value. -/
theorem c6_sn_semantics (galaxy bestfit : List ℚ) (gp : List ℕ) :
    ((calc_sn galaxy bestfit gp).signal = median (gp.map (galaxy.getD · 0)))
      ∧ ((calc_sn galaxy bestfit gp).noiseSq
          = varQ (sigma_clip5 (List.zipWith (· - ·)
              (gp.map (galaxy.getD · 0)) (gp.map (bestfit.getD · 0)))))
      ∧ ((calc_sn galaxy bestfit gp).noiseSq ≠ 0 →
          (calc_sn galaxy bestfit gp).sn
            = SNValue.finite (calc_sn galaxy bestfit gp).signal
                (calc_sn galaxy bestfit gp).noiseSq)
      ∧ ((calc_sn galaxy bestfit gp).noiseSq = 0 →
          0 < (calc_sn galaxy bestfit gp).signal →
          (calc_sn galaxy bestfit gp).sn = SNValue.posInf)
      ∧ ((calc_sn galaxy bestfit gp).noiseSq = 0 →
          (calc_sn galaxy bestfit gp).signal < 0 →
          (calc_sn galaxy bestfit gp).sn = SNValue.negInf)
      ∧ ((calc_sn galaxy bestfit gp).noiseSq = 0 →
          (calc_sn galaxy bestfit gp).signal = 0 →
          (calc_sn galaxy bestfit gp).sn = SNValue.nan) := by
  have hs : (calc_sn galaxy bestfit gp).sn
      = ieeeDivBySqrt (calc_sn galaxy bestfit gp).signal
          (calc_sn galaxy bestfit gp).noiseSq := rfl
  refine ⟨rfl, rfl, ?_, ?_, ?_, ?_⟩
  · intro h
    rw [hs, ieeeDivBySqrt, if_neg h]
  · intro h0 hpos
    rw [hs, ieeeDivBySqrt, if_pos h0, if_pos hpos]
  · intro h0 hneg
    rw [hs, ieeeDivBySqrt, if_pos h0, if_neg (lt_asymm hneg), if_pos hneg]
  · intro h0 hz
    rw [hs, ieeeDivBySqrt, if_pos h0, if_neg (by rw [hz]; exact lt_irrefl 0),
      if_neg (by rw [hz]; exact lt_irrefl 0)]

unseal Rat.add Rat.mul Rat.sub Rat.inv in
/-- C6 witness: the S/N semantics applied to a flat spectrum with positive
median flux and a perfect fit, where the zero-variance residual yields the
+infinity sentinel. -/
theorem c6_witness :
    ((calc_sn [1, 1, 1] [1, 1, 1] [0, 1, 2]).noiseSq = 0)
      ∧ (0 < (calc_sn [1, 1, 1] [1, 1, 1] [0, 1, 2]).signal)
      ∧ (calc_sn [1, 1, 1] [1, 1, 1] [0, 1, 2]).sn = SNValue.posInf :=
  ⟨by decide, by decide,
    (c6_sn_semantics [1, 1, 1] [1, 1, 1] [0, 1, 2]).2.2.2.1 (by decide) (by decide)⟩

/-! ### The batch loop (`run_ppxf`, lines 196–264) and `make_table`
(lines 267–311)

The filesystem is an association list keyed by spectrum name (one entry per
persisted per-spectrum output file).  `fit` is the whole per-spectrum
processing chain (read input, trim, rebin, mask, call `ppxf`, save): it
either produces the output content or raises one of the error kinds of the
specification.  The Python loop body has no `try`/`except`: an exception in
`fit` leaves the loop immediately. -/

/-- Error kinds named by the specification's error-handling design. -/
inductive PErr where
  | dataError
  | ioError
  | fitNonConvergence
deriving DecidableEq

/-- Lookup in the association-list filesystem (`os.path.exists` + read). -/
def lookupFS {α : Type} : List (String × α) → String → Option α
  | [], _ => none
  | (k, c) :: t, key => if k = key then some c else lookupFS t key

/-- Write (create or overwrite) an output file. -/
def writeFS {α : Type} : List (String × α) → String → α → List (String × α)
  | [], key, c => [(key, c)]
  | (k, c') :: t, key, c =>
      if k = key then (key, c) :: t else (k, c') :: writeFS t key c

/-- One iteration of the `run_ppxf` batch loop: skip when the output exists
and `redo` is false, otherwise process the spectrum, which either writes
its output or raises. -/
def ppxfStep {α : Type} (redo : Bool) (fit : String → Except PErr α)
    (fs : List (String × α)) (name : String) :
    Except PErr (List (String × α)) :=
  if (lookupFS fs name).isSome && !redo then .ok fs
  else
    match fit name with
    | .error e => .error e
    | .ok c => .ok (writeFS fs name c)

/-- The `run_ppxf` batch loop: iterate the step over the sorted file names;
an uncaught exception aborts the loop, returning the filesystem as already
written together with the escaping error. -/
def ppxfBatch {α : Type} (redo : Bool) (fit : String → Except PErr α) :
    List String → List (String × α) → List (String × α) × Option PErr
  | [], fs => (fs, none)
  | n :: rest, fs =>
    match ppxfStep redo fit fs n with
    | .error e => (fs, some e)
    | .ok fs' => ppxfBatch redo fit rest fs'

/-- `make_table`: return unchanged when the summary output exists and `redo`
is false, else build the summary from the persisted fits and write it. -/
def make_table {α : Type} (redo : Bool) (summarize : List (String × α) → α)
    (outKey : String) (fs : List (String × α)) : List (String × α) :=
  if (lookupFS fs outKey).isSome && !redo then fs
  else writeFS fs outKey (summarize fs)

theorem ppxfBatch_cons {α : Type} (redo : Bool) (fit : String → Except PErr α)
    (n : String) (rest : List String) (fs : List (String × α)) :
    ppxfBatch redo fit (n :: rest) fs
      = match ppxfStep redo fit fs n with
        | .error e => (fs, some e)
        | .ok fs' => ppxfBatch redo fit rest fs' := rfl

theorem ppxfStep_skip {α : Type} (redo : Bool) (fit : String → Except PErr α)
    (fs : List (String × α)) (n : String)
    (hskip : ((lookupFS fs n).isSome && !redo) = true) :
    ppxfStep redo fit fs n = .ok fs := by
  unfold ppxfStep
  rw [if_pos hskip]

theorem ppxfStep_error {α : Type} (redo : Bool) (fit : String → Except PErr α)
    (fs : List (String × α)) (n : String) (e : PErr)
    (hskip : ¬((lookupFS fs n).isSome && !redo) = true)
    (hfit : fit n = .error e) : ppxfStep redo fit fs n = .error e := by
  unfold ppxfStep
  rw [if_neg hskip, hfit]

theorem ppxfStep_write {α : Type} (redo : Bool) (fit : String → Except PErr α)
    (fs : List (String × α)) (n : String) (c : α)
    (hskip : ¬((lookupFS fs n).isSome && !redo) = true)
    (hfit : fit n = .ok c) : ppxfStep redo fit fs n = .ok (writeFS fs n c) := by
  unfold ppxfStep
  rw [if_neg hskip, hfit]

theorem lookupFS_writeFS {α : Type} (fs : List (String × α)) (k : String)
    (c : α) (k' : String) :
    lookupFS (writeFS fs k c) k' = if k = k' then some c else lookupFS fs k' := by
  induction fs with
  | nil =>
    by_cases h : k = k' <;> simp [writeFS, lookupFS, h]
  | cons hd t ih =>
    obtain ⟨k0, c0⟩ := hd
    by_cases h0 : k0 = k
    · subst h0
      by_cases h : k0 = k' <;> simp [writeFS, lookupFS, h]
    · by_cases h : k0 = k'
      · subst h
        have hkk : k ≠ k0 := fun hh => h0 hh.symm
        simp [writeFS, h0, lookupFS, hkk]
      · simp [writeFS, h0, lookupFS, h, ih]

theorem ppxfBatch_mono {α : Type} (redo : Bool) (fit : String → Except PErr α)
    (names : List String) :
    ∀ fs k, (lookupFS fs k).isSome = true →
      (lookupFS (ppxfBatch redo fit names fs).1 k).isSome = true := by
  induction names with
  | nil => intro fs k h; exact h
  | cons n rest ih =>
    intro fs k h
    rw [ppxfBatch_cons]
    by_cases hskip : ((lookupFS fs n).isSome && !redo) = true
    · simp only [ppxfStep_skip redo fit fs n hskip]
      exact ih fs k h
    · cases hfit : fit n with
      | error e =>
        simp only [ppxfStep_error redo fit fs n e hskip hfit]
        exact h
      | ok c =>
        simp only [ppxfStep_write redo fit fs n c hskip hfit]
        apply ih
        rw [lookupFS_writeFS]
        by_cases hk : n = k <;> simp [hk, h]

theorem ppxfBatch_all_written {α : Type} (redo : Bool)
    (fit : String → Except PErr α) (names : List String)
    (h : ∀ n ∈ names, ∃ c, fit n = .ok c) :
    ∀ fs, (ppxfBatch redo fit names fs).2 = none
      ∧ ∀ n ∈ names, (lookupFS (ppxfBatch redo fit names fs).1 n).isSome = true := by
  induction names with
  | nil => intro fs; exact ⟨rfl, by intro n hn; cases hn⟩
  | cons m rest ih =>
    intro fs
    have hrest : ∀ n ∈ rest, ∃ c, fit n = .ok c :=
      fun n hn => h n (List.mem_cons_of_mem m hn)
    rw [ppxfBatch_cons]
    by_cases hskip : ((lookupFS fs m).isSome && !redo) = true
    · simp only [ppxfStep_skip redo fit fs m hskip]
      refine ⟨(ih hrest fs).1, ?_⟩
      intro n hn
      rcases List.mem_cons.mp hn with hnm | hnr
      · subst hnm
        exact ppxfBatch_mono redo fit rest fs n (Bool.and_elim_left hskip)
      · exact (ih hrest fs).2 n hnr
    · obtain ⟨c, hc⟩ := h m (List.mem_cons_self m rest)
      simp only [ppxfStep_write redo fit fs m c hskip hc]
      refine ⟨(ih hrest _).1, ?_⟩
      intro n hn
      rcases List.mem_cons.mp hn with hnm | hnr
      · subst hnm
        apply ppxfBatch_mono
        rw [lookupFS_writeFS, if_pos rfl]
        rfl
      · exact (ih hrest _).2 n hnr

theorem ppxfBatch_skip {α : Type} (fit : String → Except PErr α)
    (names : List String) :
    ∀ fs, (∀ n ∈ names, (lookupFS fs n).isSome = true) →
      ppxfBatch false fit names fs = (fs, none) := by
  induction names with
  | nil => intro fs _; rfl
  | cons m rest ih =>
    intro fs h
    rw [ppxfBatch_cons]
    have hskip : ((lookupFS fs m).isSome && !false) = true := by
      simp [h m (List.mem_cons_self m rest)]
    simp only [ppxfStep_skip false fit fs m hskip]
    exact ih fs (fun n hn => h n (List.mem_cons_of_mem m hn))

theorem ppxfBatch_untouched {α : Type} (redo : Bool)
    (fit : String → Except PErr α) (names : List String) :
    ∀ fs k, k ∉ names →
      lookupFS (ppxfBatch redo fit names fs).1 k = lookupFS fs k := by
  induction names with
  | nil => intro fs k _; rfl
  | cons m rest ih =>
    intro fs k hk
    have hkm : k ≠ m := fun h => hk (h ▸ List.mem_cons_self m rest)
    have hkr : k ∉ rest := fun h => hk (List.mem_cons_of_mem m h)
    rw [ppxfBatch_cons]
    by_cases hskip : ((lookupFS fs m).isSome && !redo) = true
    · simp only [ppxfStep_skip redo fit fs m hskip]
      exact ih fs k hkr
    · cases hfit : fit m with
      | error e =>
        simp only [ppxfStep_error redo fit fs m e hskip hfit]
      | ok c =>
        simp only [ppxfStep_write redo fit fs m c hskip hfit]
        rw [ih _ k hkr, lookupFS_writeFS, if_neg (fun h => hkm h.symm)]

theorem lookupFS_foldl_write {α : Type} (f : String → α) (pre : List String) :
    ∀ fs k, k ∉ pre →
      lookupFS (pre.foldl (fun a m => writeFS a m (f m)) fs) k = lookupFS fs k := by
  induction pre with
  | nil => intro fs k _; rfl
  | cons m rest ih =>
    intro fs k hk
    have hkm : k ≠ m := fun h => hk (h ▸ List.mem_cons_self m rest)
    have hkr : k ∉ rest := fun h => hk (List.mem_cons_of_mem m h)
    rw [List.foldl_cons, ih _ k hkr, lookupFS_writeFS,
      if_neg (fun h => hkm h.symm)]

/-- Concrete per-spectrum processing for the C1 counterexample: the first
spectrum raises a `DataError` (malformed spectrum), the second would
process fine. -/
def fitC1 : String → Except PErr ℚ :=
  fun n => if n = "a" then .error .dataError else .ok 1

/-- C1 counterexample: the batch loop of `run_ppxf` contains no exception
handler, so a `DataError` on the first spectrum escapes the loop at once:
the second spectrum of the batch is never processed (its output is absent),
contradicting the claimed catch-log-continue policy for `DataError` /
`IOError` (and the claim that only `FitNonConvergence` propagates). -/
theorem c1_counterexample :
    ppxfBatch false fitC1 ["a", "b"] [] = ([], some PErr.dataError)
      ∧ lookupFS (ppxfBatch false fitC1 ["a", "b"] []).1 "b" = none :=
  ⟨rfl, rfl⟩

/-- C1 amended: the batch loop of `run_ppxf` catches nothing: whatever error
kind the processing of a spectrum raises (`DataError`, `IOError` or a fit
failure), the loop aborts there and the error propagates to the caller; the
outputs of the spectra processed before the failure are written and remain
intact, the failing spectrum and all later ones write nothing. -/
theorem c1_error_propagation {α : Type} (fit : String → Except PErr α)
    (f : String → α) (pre post : List String) (n : String) (e : PErr)
    (fs : List (String × α))
    (hpre : ∀ m ∈ pre, fit m = .ok (f m)) (hn : fit n = .error e) :
    ppxfBatch true fit (pre ++ n :: post) fs
        = (pre.foldl (fun a m => writeFS a m (f m)) fs, some e)
      ∧ ∀ k, k ∉ pre →
          lookupFS (ppxfBatch true fit (pre ++ n :: post) fs).1 k
            = lookupFS fs k := by
  have hmain : ∀ pre' fs', (∀ m ∈ pre', fit m = .ok (f m)) →
      ppxfBatch true fit (pre' ++ n :: post) fs'
        = (pre'.foldl (fun a m => writeFS a m (f m)) fs', some e) := by
    intro pre'
    induction pre' with
    | nil =>
      intro fs' _
      show (match ppxfStep true fit fs' n with
        | .error e => (fs', some e)
        | .ok fs'' => ppxfBatch true fit post fs'') = (fs', some e)
      unfold ppxfStep
      rw [if_neg (by simp), hn]
    | cons m rest ih =>
      intro fs' hp
      show (match ppxfStep true fit fs' m with
        | .error e => (fs', some e)
        | .ok fs'' => ppxfBatch true fit (rest ++ n :: post) fs'') = _
      unfold ppxfStep
      rw [if_neg (by simp), hp m (List.mem_cons_self m rest)]
      exact ih _ (fun m' hm' => hp m' (List.mem_cons_of_mem m hm'))
  refine ⟨hmain pre fs hpre, ?_⟩
  intro k hk
  rw [hmain pre fs hpre]
  exact lookupFS_foldl_write f pre fs k hk

/-- C1 witness: the propagation theorem instantiated on the batch
`["a", "b", "c"]` where "a" succeeds, "b" raises an `IOError`, and "c" is
left unprocessed; "a"'s output is written and intact. -/
theorem c1_witness :
    (∀ m ∈ ["a"], (fun s => if s = "b" then Except.error PErr.ioError
        else Except.ok (1 : ℚ)) m = Except.ok ((fun _ => (1 : ℚ)) m))
      ∧ ((fun s => if s = "b" then Except.error PErr.ioError
            else Except.ok (1 : ℚ)) "b" = Except.error PErr.ioError)
      ∧ (ppxfBatch true (fun s => if s = "b" then Except.error PErr.ioError
            else Except.ok (1 : ℚ)) (["a"] ++ "b" :: ["c"]) []
          = (["a"].foldl (fun a m => writeFS a m ((fun _ => (1 : ℚ)) m)) [],
              some PErr.ioError)
          ∧ ∀ k, k ∉ ["a"] →
              lookupFS (ppxfBatch true
                  (fun s => if s = "b" then Except.error PErr.ioError
                    else Except.ok (1 : ℚ)) (["a"] ++ "b" :: ["c"]) []).1 k
                = lookupFS [] k) :=
  ⟨by intro m hm; simp at hm; subst hm; rfl, rfl,
    c1_error_propagation _ (fun _ => (1 : ℚ)) ["a"] ["c"] "b" PErr.ioError []
      (by intro m hm; simp at hm; subst hm; rfl) rfl⟩

/-- C5: with `redo=false` a spectrum whose output exists is skipped and
nothing is written, so after any completed run a second `redo=false` run over
the same names is a no-op returning the identical filesystem; with
`redo=true` every named fit is recomputed and its output overwritten with
the freshly computed content; `make_table` behaves the same way on its
single summary output. -/
theorem c5_idempotence {α : Type} (fit : String → Except PErr α)
    (names : List String) (fs : List (String × α))
    (summarize : List (String × α) → α) (outKey : String) (redo : Bool)
    (h : ∀ n ∈ names, ∃ c, fit n = .ok c) :
    (ppxfBatch false fit names (ppxfBatch redo fit names fs).1
        = ((ppxfBatch redo fit names fs).1, none))
      ∧ (∀ f : String → α, (∀ n ∈ names, fit n = .ok (f n)) →
          ∀ n ∈ names, lookupFS (ppxfBatch true fit names fs).1 n = some (f n))
      ∧ ((lookupFS fs outKey).isSome = true →
          make_table false summarize outKey fs = fs)
      ∧ make_table true summarize outKey fs
          = writeFS fs outKey (summarize fs) := by
  refine ⟨?_, ?_, ?_, ?_⟩
  · exact ppxfBatch_skip fit names _ (ppxfBatch_all_written redo fit names h fs).2
  · intro f hf
    induction names generalizing fs with
    | nil => intro n hn; cases hn
    | cons m rest ih =>
      intro n hn
      have hfr : ∀ n' ∈ rest, fit n' = .ok (f n') :=
        fun n' hn' => hf n' (List.mem_cons_of_mem m hn')
      have hr : ∀ n' ∈ rest, ∃ c, fit n' = .ok c :=
        fun n' hn' => ⟨f n', hfr n' hn'⟩
      show lookupFS (match ppxfStep true fit fs m with
        | .error e => (fs, some e)
        | .ok fs' => ppxfBatch true fit rest fs').1 n = some (f n)
      unfold ppxfStep
      rw [if_neg (by simp), hf m (List.mem_cons_self m rest)]
      by_cases hnr : n ∈ rest
      · exact ih _ hr hfr n hnr
      · have hnm : n = m := by
          rcases List.mem_cons.mp hn with h' | h'
          · exact h'
          · exact absurd h' hnr
        subst hnm
        rw [ppxfBatch_untouched true fit rest _ n hnr, lookupFS_writeFS,
          if_pos rfl]
  · intro hex
    unfold make_table
    rw [if_pos (by simp [hex])]
  · unfold make_table
    rw [if_neg (by simp)]

/-- C5 witness: the idempotence theorem instantiated with one spectrum
name, an always-succeeding fit, and a filesystem already holding the
summary output key. -/
theorem c5_witness :
    (∀ n ∈ ["a"], ∃ c, (fun _ => (Except.ok (7 : ℚ) : Except PErr ℚ)) n = Except.ok c)
      ∧ (∀ n ∈ ["a"], (fun _ => (Except.ok (7 : ℚ) : Except PErr ℚ)) n
            = Except.ok ((fun _ => (7 : ℚ)) n))
      ∧ ((lookupFS [("t", (5 : ℚ))] "t").isSome = true)
      ∧ ppxfBatch false (fun _ => (Except.ok (7 : ℚ) : Except PErr ℚ)) ["a"]
            (ppxfBatch false (fun _ => (Except.ok (7 : ℚ) : Except PErr ℚ)) ["a"]
              [("t", (5 : ℚ))]).1
          = ((ppxfBatch false (fun _ => (Except.ok (7 : ℚ) : Except PErr ℚ)) ["a"]
              [("t", (5 : ℚ))]).1, none)
      ∧ lookupFS (ppxfBatch true (fun _ => (Except.ok (7 : ℚ) : Except PErr ℚ)) ["a"]
            [("t", (5 : ℚ))]).1 "a" = some 7
      ∧ make_table false (fun _ => (0 : ℚ)) "t" [("t", (5 : ℚ))]
          = [("t", (5 : ℚ))]
      ∧ make_table true (fun _ => (0 : ℚ)) "t" [("t", (5 : ℚ))]
          = writeFS [("t", (5 : ℚ))] "t"
              ((fun _ => (0 : ℚ)) [("t", (5 : ℚ))]) := by
  have hok : ∀ n ∈ ["a"], ∃ c, (fun _ => (Except.ok (7 : ℚ) : Except PErr ℚ)) n = Except.ok c :=
    by intro n _; exact ⟨7, rfl⟩
  have hf : ∀ n ∈ ["a"], (fun _ => (Except.ok (7 : ℚ) : Except PErr ℚ)) n
      = Except.ok ((fun _ => (7 : ℚ)) n) := by intro n _; rfl
  have happ := c5_idempotence (fun _ => (Except.ok (7 : ℚ) : Except PErr ℚ)) ["a"]
    [("t", (5 : ℚ))] (fun _ => (0 : ℚ)) "t" false hok
  exact ⟨hok, hf, rfl, happ.1, happ.2.1 (fun _ => (7 : ℚ)) hf "a" (by simp),
    happ.2.2.1 rfl, happ.2.2.2⟩

/-! ### Template Matrix Builder subsampling
(`WGS/pipeline.py`, `select_templates`, lines 39–62)

`idx = np.unique(np.hstack(idx))` over the `"idx"` columns of all
`*weights.fits` files of a fit directory, then `ssp_templates[idx, :]` and
`params[idx]`. -/

/-- `np.unique`: the distinct values in ascending order. -/
def npUnique (l : List ℕ) : List ℕ := (l.insertionSort (· ≤ ·)).dedup

/-- `select_templates`: reduce the template bank to the union of the
recorded per-fit index lists; returns (index list, reduced flux rows,
reduced parameter rows). -/
def select_templates (idxLists : List (List ℕ)) (ssp params : List (List ℚ)) :
    List ℕ × List (List ℚ) × List (List ℚ) :=
  let idx := npUnique idxLists.flatten
  (idx, idx.map (fun i => ssp.getD i []), idx.map (fun i => params.getD i []))

theorem getD_map_idx {γ : Type} (g : ℕ → γ) (dγ : γ) :
    ∀ (l : List ℕ) (k : ℕ), k < l.length → (l.map g).getD k dγ = g (l.getD k 0)
  | [], _, h => absurd h (by simp)
  | _ :: _, 0, _ => rfl
  | _ :: t, (k+1), h => getD_map_idx g dγ t k (Nat.lt_of_succ_lt_succ h)

theorem mem_npUnique (l : List ℕ) (i : ℕ) : i ∈ npUnique l ↔ i ∈ l := by
  rw [npUnique, List.mem_dedup]
  exact (List.perm_insertionSort _ l).mem_iff

theorem sorted_npUnique (l : List ℕ) : List.Sorted (· < ·) (npUnique l) := by
  have h1 : List.Sorted (· ≤ ·) (l.insertionSort (· ≤ ·)) :=
    List.sorted_insertionSort _ l
  have h2 : List.Sorted (· ≤ ·) (npUnique l) :=
    List.Pairwise.sublist (List.dedup_sublist _) h1
  exact h2.lt_of_le (List.nodup_dedup _)

/-- C7: the Template Matrix Builder reduces the bank to exactly the union
(deduplicated, ascending) of the template indices recorded across the fits,
and at every output position `k` the flux row and the parameter row both
come from the same original-bank row `idx k`; ascending indices preserve the
original relative order of the surviving rows. -/
theorem c7_template_subsampling (idxLists : List (List ℕ))
    (ssp params : List (List ℚ)) :
    (∀ i, i ∈ (select_templates idxLists ssp params).1 ↔ ∃ l ∈ idxLists, i ∈ l)
      ∧ List.Sorted (· < ·) (select_templates idxLists ssp params).1
      ∧ (select_templates idxLists ssp params).1.Nodup
      ∧ (∀ k, k < (select_templates idxLists ssp params).1.length →
          (select_templates idxLists ssp params).2.1.getD k []
              = ssp.getD ((select_templates idxLists ssp params).1.getD k 0) []
            ∧ (select_templates idxLists ssp params).2.2.getD k []
              = params.getD ((select_templates idxLists ssp params).1.getD k 0) [])
      ∧ (select_templates idxLists ssp params).2.1.length
          = (select_templates idxLists ssp params).1.length := by
  refine ⟨?_, sorted_npUnique _, List.nodup_dedup _, ?_, List.length_map _ _⟩
  · intro i
    rw [show (select_templates idxLists ssp params).1
        = npUnique idxLists.flatten from rfl, mem_npUnique, List.mem_flatten]
  · intro k hk
    exact ⟨getD_map_idx _ _ _ k hk, getD_map_idx _ _ _ k hk⟩

/-- C7 witness: the spec's own example — only indices {3, 7, 12} recorded
(in scattered order across two fits) against a 50-row bank — reduces to
exactly those three rows, ascending. -/
theorem c7_witness :
    (select_templates [[7, 3], [12, 3, 7]]
        ((List.range 50).map (fun (i : ℕ) => [(i : ℚ)]))
        ((List.range 50).map (fun (i : ℕ) => [(i : ℚ), 2 * (i : ℚ)]))).1
        = [3, 7, 12]
      ∧ (select_templates [[7, 3], [12, 3, 7]]
          ((List.range 50).map (fun (i : ℕ) => [(i : ℚ)]))
          ((List.range 50).map (fun (i : ℕ) => [(i : ℚ), 2 * (i : ℚ)]))).2.1.getD 1 []
        = ((List.range 50).map (fun (i : ℕ) => [(i : ℚ)])).getD 7 []
      ∧ (select_templates [[7, 3], [12, 3, 7]]
          ((List.range 50).map (fun (i : ℕ) => [(i : ℚ)]))
          ((List.range 50).map (fun (i : ℕ) => [(i : ℚ), 2 * (i : ℚ)]))).2.2.getD 1 []
        = ((List.range 50).map (fun (i : ℕ) => [(i : ℚ), 2 * (i : ℚ)])).getD 7 [] := by
  have h1 : (select_templates [[7, 3], [12, 3, 7]]
      ((List.range 50).map (fun (i : ℕ) => [(i : ℚ)]))
      ((List.range 50).map (fun (i : ℕ) => [(i : ℚ), 2 * (i : ℚ)]))).1
      = [3, 7, 12] := rfl
  have happ := (c7_template_subsampling [[7, 3], [12, 3, 7]]
    ((List.range 50).map (fun (i : ℕ) => [(i : ℚ)]))
    ((List.range 50).map (fun (i : ℕ) => [(i : ℚ), 2 * (i : ℚ)]))).2.2.2.1 1
    (by rw [h1]; decide)
  refine ⟨h1, ?_, ?_⟩
  · rw [happ.1, h1]
    rfl
  · rw [happ.2, h1]
    rfl

/-! ### Rebinner velocity offset (`run_ppxf`, lines 205–247)

`dv = (logwave_temp[0] - logLam[0]) * constants.c.to("km/s").value` and
`kwargs["vsyst"] = dv`.  The external `util.log_rebin` is the parameter
`rebin` (returning the rebinned values, possibly NaN, and the log-wavelength
grid); `np.exp` is the parameter `expQ`. -/

/-- `astropy.constants.c.to("km/s").value` = 299792.458 km/s exactly. -/
def ckms : ℚ := 299792458 / 1000

/-- The argument list of the `ppxf(templates, galaxy, noise, velscale,
**kwargs)` call. -/
structure PpxfCall where
  templates : List (List ℚ)
  galaxy : List (Option ℚ)
  noise : List (Option ℚ)
  velscale : ℚ
  vsyst : ℚ
  goodpixels : List ℕ
  lam : List ℚ

/-- The per-spectrum preparation result: the fitter call plus the
book-kept `dv` and log-wavelength grid. -/
structure PrepResult where
  call : PpxfCall
  dv : ℚ
  logLam : List ℚ

/-- Per-spectrum preparation of `run_ppxf` (lines 205–247): micrometer →
angstrom conversion, zero-flux removal, zero-uncertainty replacement, trim
to the template wavelength span, log-rebinning of flux and uncertainty,
velocity offset, and bad-pixel mask. -/
def prepSpectrum (rebin : ℚ → ℚ → List ℚ → List (Option ℚ) × List ℚ)
    (expQ : ℚ → ℚ) (logwaveTemp : List ℚ) (templates : List (List ℚ))
    (velscale : ℚ) (waveMu flux fluxerr : List ℚ) : PrepResult :=
  let wave := waveMu.map (fun w => w * 10000)
  let t1 := removeZeros wave flux fluxerr
  let w1 := t1.1
  let f1 := t1.2.1
  let e1 := replaceZeroErr t1.2.2
  let wt0 := expQ (logwaveTemp.headD 0)
  let wtLast := expQ (logwaveTemp.getLastD 0)
  let keep := (List.range w1.length).filter
    (fun i => wt0 < w1.getD i 0 ∧ w1.getD i 0 < wtLast)
  let w2 := keep.map (w1.getD · 0)
  let f2 := keep.map (f1.getD · 0)
  let e2 := keep.map (e1.getD · 0)
  let gl := rebin (w2.headD 0) (w2.getLastD 0) f2
  let logLam := gl.2
  let noise := (rebin (w2.headD 0) (w2.getLastD 0) e2).1
  let dv := (logwaveTemp.headD 0 - logLam.headD 0) * ckms
  let lam := logLam.map expQ
  { call := { templates := templates, galaxy := gl.1, noise := noise,
              velscale := velscale, vsyst := dv,
              goodpixels := goodpixels lam gl.1, lam := lam },
    dv := dv, logLam := logLam }

/-- C8: the velocity offset equals (template first log-wavelength − data
first log-wavelength) × the speed of light in km/s, and exactly this value
is what the preparation passes to the external fitter as `vsyst` (and
records as `pp.dv`). -/
theorem c8_vsyst (rebin : ℚ → ℚ → List ℚ → List (Option ℚ) × List ℚ)
    (expQ : ℚ → ℚ) (logwaveTemp : List ℚ) (templates : List (List ℚ))
    (velscale : ℚ) (waveMu flux fluxerr : List ℚ) :
    (prepSpectrum rebin expQ logwaveTemp templates velscale
        waveMu flux fluxerr).call.vsyst
        = (logwaveTemp.headD 0
            - (prepSpectrum rebin expQ logwaveTemp templates velscale
                waveMu flux fluxerr).logLam.headD 0) * ckms
      ∧ (prepSpectrum rebin expQ logwaveTemp templates velscale
          waveMu flux fluxerr).dv
        = (prepSpectrum rebin expQ logwaveTemp templates velscale
            waveMu flux fluxerr).call.vsyst
      ∧ ckms = 299792458 / 1000 :=
  ⟨rfl, rfl, rfl⟩

/-! ### Stellar-population entry point (`run_stellar_populations`,
lines 314–345) and the component setup of `run_ppxf` (lines 180–187). -/

/-- The keyword configuration `run_stellar_populations` assembles. -/
structure PpxfKwargs where
  start : List (List ℚ)
  moments : List ℕ
  degree : ℕ
  mdegree : ℕ
  reddening : Option ℚ
  clean : Bool
  bounds : List (List (ℚ × ℚ))
  velscale : ℚ

/-- The kwargs built per component count (lines 322–340); `none` for any
other count, where `kwargs` is never assigned and the subsequent call
raises `NameError`. -/
def buildKwargs (v0 velscale : ℚ) : ℕ → Option PpxfKwargs
  | 1 => some
      { start := [[v0, 50, 0, 0]], moments := [4], degree := 20, mdegree := 5,
        reddening := none, clean := true,
        bounds := [[(v0 - 2000, v0 + 2000), (3, 800),
          (-(3/10), 3/10), (-(3/10), 3/10)]],
        velscale := velscale }
  | 2 => some
      { start := [[v0, 50, 0, 0], [v0, 50, 0, 0]], moments := [4],
        degree := 12, mdegree := 0, reddening := none, clean := false,
        bounds := [[(v0 - 2000, v0 + 2000), (3, 800),
            (-(3/10), 3/10), (-(3/10), 3/10)],
          [(v0 - 2000, v0 + 2000), (3, 80),
            (-(3/10), 3/10), (-(3/10), 3/10)]],
        velscale := velscale }
  | _ => none

/-- The template stack and component-label vector `run_ppxf` sets up for a
given `ncomp` (`templates = stars.T` with a zero component vector for 1,
stars and gas stacked with 0/1 labels for 2, nothing otherwise). -/
def setComponents (ncomp : ℕ) (stars emission : List (List ℚ)) :
    Option (List (List ℚ) × List ℕ) :=
  if ncomp = 1 then some (stars, List.replicate stars.length 0)
  else if ncomp = 2 then
    some (stars ++ emission,
      List.replicate stars.length 0 ++ List.replicate emission.length 1)
  else none

/-- `run_stellar_populations`: builds the kwargs for its own `ncomp`
argument, then invokes `run_ppxf` with the literal `ncomp=1`; the returned
pair is (ncomp passed to `run_ppxf`, kwargs), `none` when the kwargs were
never assigned. -/
def run_stellar_populations (v0 velscale : ℚ) (ncomp : ℕ) :
    Option (ℕ × PpxfKwargs) :=
  (buildKwargs v0 velscale ncomp).map (fun kw => (1, kw))

/-- C10: whenever `run_stellar_populations` reaches the `run_ppxf` call —
for any value of its own `ncomp` argument, including `ncomp=2` with its
two-component bounds — the `ncomp` it passes is the literal 1, so the
template stack `run_ppxf` builds is the stellar bank alone with a single
all-zeros component vector; the stars-plus-gas path is never taken from
this entry point. -/
theorem c10_ncomp_hardcoded (v0 velscale : ℚ) (ncomp : ℕ)
    (inv : ℕ × PpxfKwargs)
    (h : run_stellar_populations v0 velscale ncomp = some inv) :
    inv.1 = 1
      ∧ ∀ stars emission : List (List ℚ),
          setComponents inv.1 stars emission
            = some (stars, List.replicate stars.length 0) := by
  have h1 : inv.1 = 1 := by
    unfold run_stellar_populations at h
    cases hb : buildKwargs v0 velscale ncomp with
    | none => rw [hb] at h; cases h
    | some kw =>
      rw [hb] at h
      cases h
      rfl
  refine ⟨h1, ?_⟩
  intro stars emission
  rw [h1]
  rfl

/-- C10 witness: `run_stellar_populations` invoked with `ncomp = 2` (the
stars-plus-gas configuration) still hands `ncomp = 1` to `run_ppxf`. -/
theorem c10_witness :
    (run_stellar_populations 0 20 2
        = some (1, ⟨[[0, 50, 0, 0], [0, 50, 0, 0]], [4], 12, 0, none, false,
            [[(0 - 2000, 0 + 2000), (3, 800), (-(3/10), 3/10), (-(3/10), 3/10)],
              [(0 - 2000, 0 + 2000), (3, 80), (-(3/10), 3/10), (-(3/10), 3/10)]],
            20⟩))
      ∧ ((1 : ℕ), (⟨[[0, 50, 0, 0], [0, 50, 0, 0]], [4], 12, 0, none, false,
            [[(0 - 2000, 0 + 2000), (3, 800), (-(3/10), 3/10), (-(3/10), 3/10)],
              [(0 - 2000, 0 + 2000), (3, 80), (-(3/10), 3/10), (-(3/10), 3/10)]],
            20⟩ : PpxfKwargs)).1 = 1
      ∧ ∀ stars emission : List (List ℚ),
          setComponents 1 stars emission
            = some (stars, List.replicate stars.length 0) := by
  have happ := c10_ncomp_hardcoded 0 20 2
    (1, ⟨[[0, 50, 0, 0], [0, 50, 0, 0]], [4], 12, 0, none, false,
      [[(0 - 2000, 0 + 2000), (3, 800), (-(3/10), 3/10), (-(3/10), 3/10)],
        [(0 - 2000, 0 + 2000), (3, 80), (-(3/10), 3/10), (-(3/10), 3/10)]],
      20⟩) rfl
  exact ⟨rfl, happ.1, happ.2⟩

end Wifis
